import Mathlib

/-!
Verification development for the MyAgentive session concurrency and
message-routing core.  The definitions below are a shallow embedding of
the TypeScript sources:

- server/core/session-manager.ts  (ManagedSession, SessionManager)
- server/telegram/fragment-buffer.ts  (FragmentBuffer)
- server/telegram/subscription-manager.ts  (MediaGroupBuffer)
- the update de-duplication tracker (UpdateTracker)
- the reply threading manager (ReplyModeManager)

JavaScript Map objects are embedded as association lists with the
insertion-order semantics of Map.set / Map.delete.  Debounce timers are
embedded by making timer expiry an explicit transition (flush).  Side
effects (database writes, engine calls, event fan-out) are recorded in an
explicit effect trace.
-/

namespace MyAgentive

/-- JS Map.set semantics on an association list: replace the binding in
place when the key is present (keeping insertion order), append otherwise. -/
def mapSet {K V : Type} [DecidableEq K] (k : K) (v : V) : List (K × V) → List (K × V)
  | [] => [(k, v)]
  | (k₀, v₀) :: rest => if k₀ = k then (k, v) :: rest else (k₀, v₀) :: mapSet k v rest

/-- JS Map.delete semantics on an association list. -/
def mapDelete {K V : Type} [DecidableEq K] (k : K) : List (K × V) → List (K × V)
  | [] => []
  | (k₀, v₀) :: rest => if k₀ = k then rest else (k₀, v₀) :: mapDelete k rest

/-! ## UpdateTracker (bounded FIFO de-duplication of Telegram update ids) -/

/-- State of the UpdateTracker class: a membership set (processedIds), the
insertion-ordered id list (orderedIds) and the capacity (maxSize). -/
structure UpdateTracker where
  processedIds : List Int
  orderedIds : List Int
  maxSize : Nat
deriving DecidableEq

/-- Freshly constructed tracker (constructor with maxSize, default 1000). -/
def UpdateTracker.new (maxSize : Nat := 1000) : UpdateTracker :=
  { processedIds := [], orderedIds := [], maxSize := maxSize }

/-- Embedding of UpdateTracker.isDuplicate: if the id is tracked return
true, otherwise record it (append to set and ordered list), evict the
oldest id once the list exceeds capacity (Array.shift on orderedIds and
Set.delete of that id), and return false. -/
def UpdateTracker.isDuplicate (t : UpdateTracker) (updateId : Int) : Bool × UpdateTracker :=
  if t.processedIds.contains updateId then
    (true, t)
  else
    let processed := t.processedIds ++ [updateId]
    let ordered := t.orderedIds ++ [updateId]
    if t.maxSize < ordered.length then
      let oldest := ordered.headD 0
      (false, { t with processedIds := processed.erase oldest, orderedIds := ordered.tail })
    else
      (false, { t with processedIds := processed, orderedIds := ordered })

/-- Embedding of UpdateTracker.clear. -/
def UpdateTracker.clear (t : UpdateTracker) : UpdateTracker :=
  { t with processedIds := [], orderedIds := [] }

/-- Feed a list of update ids through isDuplicate, keeping only the state. -/
def UpdateTracker.run (t : UpdateTracker) (ids : List Int) : UpdateTracker :=
  ids.foldl (fun s i => (s.isDuplicate i).2) t

/-! ## FragmentBuffer (reassembly of long messages split by Telegram) -/

/-- One buffered (possibly fragmented) message, keyed by chat id.  The
timeout handle of the source is embedded by the explicit flush
transition below; lastUpdate keeps the wall-clock field. -/
structure BufferedMessage where
  chatId : Int
  fragments : List String
  firstMessageId : Int
  lastUpdate : Nat
deriving DecidableEq

/-- State of the FragmentBuffer class. -/
structure FragmentBuffer where
  buffers : List (Int × BufferedMessage)
  fragmentThreshold : Nat := 4000
deriving DecidableEq

/-- Embedding of FragmentBuffer.add.  Returns (buffered?, new state):
append to an existing buffer for the chat (always buffered), start a new
buffer when the text reaches the fragment threshold, otherwise report
false so the caller processes the text immediately. -/
def FragmentBuffer.add (fb : FragmentBuffer) (chatId messageId : Int) (text : String)
    (now : Nat) : Bool × FragmentBuffer :=
  let isLikelyFragment := fb.fragmentThreshold ≤ text.length
  match fb.buffers.lookup chatId with
  | some existing =>
      let updated := { existing with fragments := existing.fragments ++ [text], lastUpdate := now }
      (true, { fb with buffers := mapSet chatId updated fb.buffers })
  | none =>
      if isLikelyFragment then
        (true, { fb with buffers := mapSet chatId ⟨chatId, [text], messageId, now⟩ fb.buffers })
      else
        (false, fb)

/-- Embedding of FragmentBuffer.flush, the debounce-expiry transition:
delete the buffer and produce the (chatId, combinedText, firstMessageId)
triple passed to the flush callback; no output when no buffer exists. -/
def FragmentBuffer.flush (fb : FragmentBuffer) (chatId : Int) :
    FragmentBuffer × Option (Int × String × Int) :=
  match fb.buffers.lookup chatId with
  | none => (fb, none)
  | some b =>
      ({ fb with buffers := mapDelete chatId fb.buffers },
       some (chatId, String.join b.fragments, b.firstMessageId))

/-- Embedding of FragmentBuffer.clear: discard without flushing. -/
def FragmentBuffer.clearChat (fb : FragmentBuffer) (chatId : Int) : FragmentBuffer :=
  { fb with buffers := mapDelete chatId fb.buffers }

/-- Feed a sequence of (messageId, text) pairs for one chat through add,
keeping only the state. -/
def FragmentBuffer.addAll (fb : FragmentBuffer) (chatId : Int)
    (pairs : List (Int × String)) (now : Nat) : FragmentBuffer :=
  pairs.foldl (fun s p => (s.add chatId p.1 p.2 now).2) fb

/-! ## MediaGroupBuffer (collation of Telegram album items) -/

/-- One media item of an album. -/
structure MediaItem where
  type : String
  fileId : String
  caption : Option String
  messageId : Int
deriving DecidableEq

/-- One buffered media group, keyed by media group id. -/
structure BufferedMediaGroup where
  chatId : Int
  mediaGroupId : String
  items : List MediaItem
  firstMessageId : Int
deriving DecidableEq

/-- State of the MediaGroupBuffer class. -/
structure MediaGroupBuffer where
  groups : List (String × BufferedMediaGroup)
deriving DecidableEq

/-- Embedding of MediaGroupBuffer.add.  A missing (or, by JS truthiness,
empty) group id is not buffered; otherwise the item is appended to the
group keyed by mediaGroupId alone, creating the group with the chatId and
firstMessageId of this first call when absent. -/
def MediaGroupBuffer.add (b : MediaGroupBuffer) (chatId : Int) (mediaGroupId : Option String)
    (messageId : Int) (type fileId : String) (caption : Option String) :
    Bool × MediaGroupBuffer :=
  match mediaGroupId with
  | none => (false, b)
  | some gid =>
      if gid = "" then (false, b)
      else
        match b.groups.lookup gid with
        | some existing =>
            let updated := { existing with items := existing.items ++ [⟨type, fileId, caption, messageId⟩] }
            (true, { groups := mapSet gid updated b.groups })
        | none =>
            let fresh : BufferedMediaGroup := ⟨chatId, gid, [⟨type, fileId, caption, messageId⟩], messageId⟩
            (true, { groups := mapSet gid fresh b.groups })

/-- Embedding of MediaGroupBuffer.flush, the debounce-expiry transition:
delete the group and produce the value handed to the flush callback. -/
def MediaGroupBuffer.flush (b : MediaGroupBuffer) (gid : String) :
    MediaGroupBuffer × Option BufferedMediaGroup :=
  match b.groups.lookup gid with
  | none => (b, none)
  | some g => ({ groups := mapDelete gid b.groups }, some g)

/-- One call record for MediaGroupBuffer.add: chat id, message id, item
type, file id, caption. -/
structure MediaAddCall where
  chatId : Int
  messageId : Int
  type : String
  fileId : String
  caption : Option String
deriving DecidableEq

/-- Feed a sequence of add calls sharing one group id, keeping the state. -/
def MediaGroupBuffer.addAll (b : MediaGroupBuffer) (gid : String)
    (calls : List MediaAddCall) : MediaGroupBuffer :=
  calls.foldl (fun s c => (s.add c.chatId (some gid) c.messageId c.type c.fileId c.caption).2) b

/-! ## ReplyModeManager (reply threading policies off / first / all) -/

/-- The three reply threading policies. -/
inductive ReplyMode
  | off
  | first
  | all
deriving DecidableEq

/-- Per-chat reply context: the first and last recorded user message ids. -/
structure ReplyContext where
  chatId : Int
  firstMessageId : Option Int
  lastUserMessageId : Int
deriving DecidableEq

/-- State of the ReplyModeManager class (the mode is global). -/
structure ReplyModeManager where
  contexts : List (Int × ReplyContext)
  mode : ReplyMode
deriving DecidableEq

/-- Embedding of ReplyModeManager.getReplyToId. -/
def ReplyModeManager.getReplyToId (m : ReplyModeManager) (chatId : Int) : Option Int :=
  match m.contexts.lookup chatId with
  | none => none
  | some ctx =>
      match m.mode with
      | .off => none
      | .first => ctx.firstMessageId
      | .all => some ctx.lastUserMessageId

/-- Embedding of ReplyModeManager.recordUserMessage: create the context
(setting both pointers) when absent, otherwise update only the last
pointer; return getReplyToId of the resulting state. -/
def ReplyModeManager.recordUserMessage (m : ReplyModeManager) (chatId messageId : Int) :
    Option Int × ReplyModeManager :=
  match m.contexts.lookup chatId with
  | none =>
      let m2 := { m with contexts := mapSet chatId ⟨chatId, some messageId, messageId⟩ m.contexts }
      (m2.getReplyToId chatId, m2)
  | some ctx =>
      let updated := { ctx with lastUserMessageId := messageId }
      let m2 := { m with contexts := mapSet chatId updated m.contexts }
      (m2.getReplyToId chatId, m2)

/-- Embedding of ReplyModeManager.resetFirst: null the first pointer of an
existing context (no effect when the chat has no context). -/
def ReplyModeManager.resetFirst (m : ReplyModeManager) (chatId : Int) : ReplyModeManager :=
  match m.contexts.lookup chatId with
  | none => m
  | some ctx =>
      { m with contexts := mapSet chatId { ctx with firstMessageId := none } m.contexts }

/-- Embedding of ReplyModeManager.clearContext. -/
def ReplyModeManager.clearContext (m : ReplyModeManager) (chatId : Int) : ReplyModeManager :=
  { m with contexts := mapDelete chatId m.contexts }

/-! ## ManagedSession (per-conversation state machine, session-manager.ts)

The asynchronous pieces are embedded explicitly: the engine output stream
is a StreamOutcome value (the finite list of SDK messages it yields,
ending gracefully or raising), engine dispatch failures are Option String
oracles (none means the call returned, some e means it threw with message
e), the wall clock is a Nat parameter, and the media directory scan is a
List String parameter (the file paths scanDirectory would return).  Side
effects appear in order in an Effect trace. -/

/-- Events broadcast to subscribers (the OutgoingWSMessage values built in
session-manager.ts).  Each constructor carries exactly the fields the
source attaches; the error event built by broadcastError carries no
sessionName field. -/
inductive Event
  | user_message (content sessionName source : String)
  | assistant_message (content sessionName : String)
  | tool_use (toolName toolId toolInput sessionName : String)
  | result (success : Bool) (sessionName : String) (cost duration : Nat)
  | file_delivery (filePath filename sessionName : String) (webUrl caption : Option String)
  | context_update (sessionName : String) (usedTokens maxTokens usedPercentage : Nat)
  | compacting (sessionName : String)
  | compacted (sessionName : String) (preTokens : Option Nat) (trigger : Option String)
  | error (error : String)
deriving DecidableEq

/-- The sessionName field of an event envelope, when the event has one. -/
def Event.sessionNameField : Event → Option String
  | .user_message _ n _ => some n
  | .assistant_message _ n => some n
  | .tool_use _ _ _ n => some n
  | .result _ n _ _ => some n
  | .file_delivery _ _ n _ _ => some n
  | .context_update n _ _ _ => some n
  | .compacting n => some n
  | .compacted n _ _ => some n
  | .error _ => none

/-- Whether an event is an error event. -/
def Event.isError : Event → Bool
  | .error _ => true
  | _ => false

/-- A file record pushed into deliveredFiles before the metadata merge. -/
structure DeliveredFile where
  type : String
  filename : String
  webUrl : String
deriving DecidableEq

/-- Side effects of the ManagedSession methods, in program order. -/
inductive Effect
  | snapshotMedia (files : List String)
  | dbCreateMessage (role content source : String)
  | broadcastEvent (e : Event)
  | activity (kind summary : String)
  | engineSendAttempt (content : String)
  | engineClose
  | engineCreate (resumeSessionId : Option String)
  | dbUpdateSdkSessionId (id : String)
  | dbClearSdkSessionId
  | dbUpdateMetadata (mediaFiles : List DeliveredFile)
  | startListeningCall
deriving DecidableEq

/-- The events carried by the broadcastEvent effects of a trace. -/
def broadcastsOf (effs : List Effect) : List Event :=
  effs.filterMap fun eff =>
    match eff with
    | .broadcastEvent e => some e
    | _ => none

/-- Mutable fields of the ManagedSession class (the subscriber map is
embedded separately by broadcastRun, the AgentSession by the oracles). -/
structure SessionState where
  sessionId : String
  sessionName : String
  isListening : Bool
  isResetting : Bool
  isProcessing : Bool
  processingStartedAt : Option Nat
  mediaSnapshot : List String
  sdkSessionId : Option String
deriving DecidableEq

/-- Usage block of an SDK result message (absent numeric fields are 0). -/
structure Usage where
  input_tokens : Nat
  cache_read_input_tokens : Nat
  cache_creation_input_tokens : Nat
deriving DecidableEq

/-- Content blocks of an SDK assistant message. -/
inductive ContentBlock
  | text (text : String)
  | tool_use (name id input : String)
  | otherBlock
deriving DecidableEq

/-- The SDK message shapes handleSDKMessage dispatches on. -/
inductive SDKMessage
  | systemInit (session_id : Option String)
  | systemStatus (status : String)
  | systemCompactBoundary (preTokens : Option Nat) (trigger : Option String)
  | assistantStr (content : String)
  | assistantBlocks (content : List ContentBlock)
  | result (subtype : String) (total_cost_usd duration_ms : Nat) (usage : Option Usage)
  | otherMsg
deriving DecidableEq

/-- An engine output stream: the SDK messages it yields, then either a
graceful end or a raised error. -/
inductive StreamOutcome
  | ends (msgs : List SDKMessage)
  | throws (msgs : List SDKMessage) (err : String)
deriving DecidableEq

/-- Last path component (path.basename for paths without trailing slash). -/
def basenameOf (p : String) : String :=
  (p.splitOn "/").getLastD ""

/-- JS filename.substring(filename.lastIndexOf ".") — the whole filename
when it has no dot (lastIndexOf gives -1, clamped to 0 by substring). -/
def extOf (filename : String) : String :=
  match filename.splitOn "." with
  | [] => filename
  | [_] => filename
  | parts => "." ++ parts.getLastD ""

/-- The extension-to-media-type map of the result branch. -/
def typeMapLookup (ext : String) : String :=
  if ext = ".mp3" ∨ ext = ".wav" ∨ ext = ".m4a" ∨ ext = ".ogg" then "audio"
  else if ext = ".mp4" ∨ ext = ".mov" ∨ ext = ".webm" then "video"
  else if ext = ".jpg" ∨ ext = ".jpeg" ∨ ext = ".png" ∨ ext = ".gif" ∨ ext = ".webp" then "image"
  else "document"

/-- Relative web path of a delivered file: strip the media root and one
leading slash, falling back to the basename. -/
def relativeOf (mediaPath filePath : String) : String :=
  if mediaPath.isPrefixOf filePath then
    let r := filePath.drop mediaPath.length
    if "/".isPrefixOf r then r.drop 1 else r
  else
    basenameOf filePath

/-- The DeliveredFile record built for one outbox file. -/
def deliveredFileOf (mediaPath fp : String) : DeliveredFile :=
  let filename := basenameOf fp
  { type := typeMapLookup (extOf filename).toLower
    filename := filename
    webUrl := "/api/media/" ++ relativeOf mediaPath fp }

/-- Percentage the context_update event reports: Math.round of
usedTokens / 200000 * 100, as exact natural arithmetic. -/
def usedPercentageOf (usedTokens : Nat) : Nat :=
  (usedTokens + 1000) / 2000

/-- Effects of storeAndBroadcastAssistant: persist the assistant message,
then broadcast it. -/
def assistantEffects (st : SessionState) (content : String) : List Effect :=
  [.dbCreateMessage "assistant" content "agent",
   .broadcastEvent (.assistant_message content st.sessionName)]

/-- Embedding of ManagedSession.resetAgentSession: skip when a reset is
already in flight, otherwise close the engine session and create a fresh
one resuming from the stored SDK session id; isListening is cleared. -/
def resetAgentSession (st : SessionState) : SessionState × List Effect :=
  if st.isResetting then (st, [])
  else ({ st with isListening := false }, [.engineClose, .engineCreate st.sdkSessionId])

/-- Embedding of ManagedSession.handleSDKMessage for one SDK message,
given the current contents of the media directory (world).  Produces the
updated state and the ordered side effects. -/
def handleSDKMessage (mediaPath : String) (world : List String) (st : SessionState) :
    SDKMessage → SessionState × List Effect
  | .systemInit sid? =>
      match sid? with
      | some sid =>
          if sid ≠ "" ∧ st.sdkSessionId ≠ some sid then
            ({ st with sdkSessionId := some sid }, [.dbUpdateSdkSessionId sid])
          else
            (st, [])
      | none => (st, [])
  | .systemStatus status =>
      if status = "compacting" then
        (st, [.broadcastEvent (.compacting st.sessionName)])
      else
        (st, [])
  | .systemCompactBoundary preTokens trigger =>
      (st, [.broadcastEvent (.compacted st.sessionName preTokens trigger)])
  | .assistantStr content =>
      (st, assistantEffects st content)
  | .assistantBlocks blocks =>
      (st, (blocks.map fun b =>
        match b with
        | .text t => assistantEffects st t
        | .tool_use n i inp =>
            [Effect.broadcastEvent (.tool_use n i inp st.sessionName),
             Effect.activity "tool_use" ("Tool: " ++ n)]
        | .otherBlock => []).flatten)
  | .result subtype cost duration usage =>
      let ctxEffs : List Effect :=
        match usage with
        | none => []
        | some u =>
            let used := u.input_tokens + u.cache_read_input_tokens + u.cache_creation_input_tokens
            if 0 < used then
              [.broadcastEvent (.context_update st.sessionName used 200000 (usedPercentageOf used))]
            else []
      let success := subtype = "success"
      let resEff : Effect := .broadcastEvent (.result success st.sessionName cost duration)
      let st2 := { st with isProcessing := false, processingStartedAt := none }
      if success then
        let newFiles := world.filter fun f => ¬ st.mediaSnapshot.contains f
        let fileEffs := newFiles.map fun fp =>
          Effect.broadcastEvent (.file_delivery fp (basenameOf fp) st.sessionName
            (some ("/api/media/" ++ relativeOf mediaPath fp)) none)
        let deliveredFiles := newFiles.map (deliveredFileOf mediaPath)
        let metaEffs : List Effect :=
          if deliveredFiles.length > 0 then [.dbUpdateMetadata deliveredFiles] else []
        (st2, ctxEffs ++ [resEff] ++ fileEffs ++ metaEffs)
      else
        (st2, ctxEffs ++ [resEff])
  | .otherMsg => (st, [])

/-- Fold handleSDKMessage over the messages the stream yields. -/
def runLoop (mediaPath : String) (world : List String) :
    SessionState → List SDKMessage → SessionState × List Effect
  | st, [] => (st, [])
  | st, m :: rest =>
      let r1 := handleSDKMessage mediaPath world st m
      let r2 := runLoop mediaPath world r1.1 rest
      (r2.1, r1.2 ++ r2.2)

/-- Embedding of ManagedSession.startListening: no-op when a loop is
already listening; otherwise drive the stream to its outcome.  On a raised
error: broadcast it, emit the activity event, clear the SDK session id in
memory and persistence, and reset the engine session.  The finally block
unconditionally clears isListening and isProcessing. -/
def startListening (mediaPath : String) (world : List String) (st : SessionState)
    (outcome : StreamOutcome) : SessionState × List Effect :=
  if st.isListening then (st, [])
  else
    let st0 := { st with isListening := true }
    match outcome with
    | .ends msgs =>
        let r := runLoop mediaPath world st0 msgs
        ({ r.1 with isListening := false, isProcessing := false }, r.2)
    | .throws msgs err =>
        let r := runLoop mediaPath world st0 msgs
        let st2 := { r.1 with sdkSessionId := none }
        let rr := resetAgentSession st2
        ({ rr.1 with isListening := false, isProcessing := false },
         r.2 ++ [.broadcastEvent (.error err),
                 .activity "error" ("Session error: " ++ err),
                 .dbClearSdkSessionId] ++ rr.2)

/-- The busy error text broadcast when a message arrives while Processing. -/
def busyErrorText : String := "Please wait for the current request to complete"

/-- Embedding of ManagedSession.sendMessage.  sendError and retryError are
the dispatch oracles: none means agentSession.sendMessage returned, some e
means it threw with message e.  When Processing, only the busy error is
broadcast and the state is unchanged.  Otherwise the Processing flag is
set, the media directory snapshotted, the user message persisted and
broadcast, and the content forwarded; a dispatch failure resets the engine
session and retries once; a failed retry broadcasts an error and returns
(the finally block of the source leaves isProcessing set). -/
def sendMessage (st : SessionState) (world : List String) (now : Nat)
    (content source : String) (sendError retryError : Option String) :
    SessionState × List Effect :=
  if st.isProcessing then
    (st, [.broadcastEvent (.error busyErrorText)])
  else
    let st1 := { st with isProcessing := true, processingStartedAt := some now,
                         mediaSnapshot := world }
    let preEffs : List Effect :=
      [.snapshotMedia world,
       .dbCreateMessage "user" content source,
       .broadcastEvent (.user_message content st.sessionName source),
       .activity "message" ("User: " ++ content.take 100 ++ "...")]
    match sendError with
    | none =>
        let listenEffs : List Effect := if st1.isListening then [] else [.startListeningCall]
        (st1, preEffs ++ [.engineSendAttempt content] ++ listenEffs)
    | some _ =>
        let rr := resetAgentSession st1
        match retryError with
        | none =>
            let listenEffs : List Effect := if rr.1.isListening then [] else [.startListeningCall]
            (rr.1, preEffs ++ [.engineSendAttempt content] ++ rr.2
              ++ [.engineSendAttempt content] ++ listenEffs)
        | some msg =>
            (rr.1, preEffs ++ [.engineSendAttempt content] ++ rr.2
              ++ [.engineSendAttempt content,
                  .broadcastEvent (.error ("Failed to send message: " ++ msg))])

/-! ## Subscriber fan-out (ManagedSession.broadcast) -/

/-- Embedding of ManagedSession.broadcast over the subscriber map: each
callback is embedded as a function returning true when it returns normally
and false when it throws.  The fold returns the surviving subscriber list
(throwing subscribers deleted, Map iteration visiting the rest) and the
client ids whose callback was invoked, in iteration order. -/
def broadcastRun (e : Event) :
    List (String × (Event → Bool)) → List (String × (Event → Bool)) × List String
  | [] => ([], [])
  | (cid, cb) :: rest =>
      let r := broadcastRun e rest
      if cb e then ((cid, cb) :: r.1, cid :: r.2)
      else (r.1, cid :: r.2)

/-! ## SessionManager (conversation registry) -/

/-- The row sessionRepo.getOrCreateByName returns. -/
structure DbSession where
  id : String
  name : String
  sdk_session_id : Option String
deriving DecidableEq

/-- Side effects of the SessionManager methods. -/
inductive SMEffect
  | dbGetOrCreateByName (name createdBy : String)
  | engineCreate (resumeSessionId : Option String)
  | sessionsChanged
deriving DecidableEq

/-- Registry state: name to ManagedSession map and clientId to name map. -/
structure SMState where
  sessions : List (String × SessionState)
  clientSessions : List (String × String)
deriving DecidableEq

/-- The ManagedSession constructor: fresh flags, the SDK session id loaded
from the database row (the constructor also creates the engine session,
recorded as an SMEffect by the caller). -/
def newManagedSession (db : DbSession) : SessionState :=
  { sessionId := db.id, sessionName := db.name, isListening := false,
    isResetting := false, isProcessing := false, processingStartedAt := none,
    mediaSnapshot := [], sdkSessionId := db.sdk_session_id }

/-- Embedding of SessionManager.getOrCreateSession: return the in-memory
instance when present (no database call, no sessions_changed event);
otherwise load or create the database row (db is the returned row), build
a ManagedSession from it, store it, and emit sessions_changed. -/
def SMState.getOrCreateSession (sm : SMState) (name createdBy : String) (db : DbSession) :
    SessionState × SMState × List SMEffect :=
  match sm.sessions.lookup name with
  | some s => (s, sm, [])
  | none =>
      let s := newManagedSession db
      (s, { sm with sessions := mapSet name s sm.sessions },
       [.dbGetOrCreateByName name createdBy, .engineCreate db.sdk_session_id, .sessionsChanged])

/-! ## Concrete fixtures used by witnesses and counterexamples -/

/-- An idle conversation state with a stored resume token. -/
def idleSession : SessionState :=
  { sessionId := "s1", sessionName := "main", isListening := false, isResetting := false,
    isProcessing := false, processingStartedAt := none, mediaSnapshot := [],
    sdkSessionId := some "tok" }

/-- The same conversation while a turn is in flight. -/
def processingSession : SessionState :=
  { idleSession with isProcessing := true, processingStartedAt := some 5 }

/-- A subscriber callback that returns normally on every event. -/
def demoCbTrue : Event → Bool := fun _ => true

/-- A subscriber callback that throws on every event. -/
def demoCbFalse : Event → Bool := fun _ => false

/-- Three subscribers, the middle one throwing. -/
def demoSubs : List (String × (Event → Bool)) :=
  [("a", demoCbTrue), ("b", demoCbFalse), ("c", demoCbTrue)]

/-- A fresh reply manager in mode first. -/
def replyDemo : ReplyModeManager := { contexts := [], mode := .first }

/-- The MediaItem an add call appends. -/
def MediaAddCall.item (c : MediaAddCall) : MediaItem :=
  ⟨c.type, c.fileId, c.caption, c.messageId⟩

/-! ## Association-list lemmas shared by the claims -/

theorem lookup_mapSet_self {K V : Type} [BEq K] [LawfulBEq K] [DecidableEq K]
    (k : K) (v : V) (l : List (K × V)) : (mapSet k v l).lookup k = some v := by
  induction l with
  | nil => simp [mapSet, List.lookup]
  | cons p rest ih =>
      obtain ⟨k₀, v₀⟩ := p
      by_cases h : k₀ = k
      · subst h; simp [mapSet, List.lookup]
      · have hb : (k == k₀) = false := by
          simp only [beq_eq_false_iff_ne]; exact fun hk => h hk.symm
        simp [mapSet, h, List.lookup, hb, ih]

theorem lookup_append_single {K V : Type} [BEq K] [LawfulBEq K]
    (k : K) (v : V) (l : List (K × V)) (h : l.lookup k = none) :
    (l ++ [(k, v)]).lookup k = some v := by
  induction l with
  | nil => simp [List.lookup]
  | cons p rest ih =>
      obtain ⟨k₀, v₀⟩ := p
      cases hb : k == k₀ with
      | true => simp [List.lookup, hb] at h
      | false =>
          simp only [List.lookup, hb] at h
          simpa [List.lookup, hb] using ih h

theorem mapSet_of_lookup_none {K V : Type} [BEq K] [LawfulBEq K] [DecidableEq K]
    (k : K) (v : V) (l : List (K × V)) (h : l.lookup k = none) :
    mapSet k v l = l ++ [(k, v)] := by
  induction l with
  | nil => simp [mapSet]
  | cons p rest ih =>
      obtain ⟨k₀, v₀⟩ := p
      cases hb : k == k₀ with
      | true => simp [List.lookup, hb] at h
      | false =>
          simp only [List.lookup, hb] at h
          have hne : ¬ k₀ = k := by
            intro hk; subst hk; simp at hb
          simp [mapSet, hne, ih h]

theorem mapSet_append_single {K V : Type} [BEq K] [LawfulBEq K] [DecidableEq K]
    (k : K) (v b : V) (l : List (K × V)) (h : l.lookup k = none) :
    mapSet k v (l ++ [(k, b)]) = l ++ [(k, v)] := by
  induction l with
  | nil => simp [mapSet]
  | cons p rest ih =>
      obtain ⟨k₀, v₀⟩ := p
      cases hb : k == k₀ with
      | true => simp [List.lookup, hb] at h
      | false =>
          simp only [List.lookup, hb] at h
          have hne : ¬ k₀ = k := by
            intro hk; subst hk; simp at hb
          simp [mapSet, hne, ih h]

theorem mapDelete_append_single {K V : Type} [BEq K] [LawfulBEq K] [DecidableEq K]
    (k : K) (v : V) (l : List (K × V)) (h : l.lookup k = none) :
    mapDelete k (l ++ [(k, v)]) = l := by
  induction l with
  | nil => simp [mapDelete]
  | cons p rest ih =>
      obtain ⟨k₀, v₀⟩ := p
      cases hb : k == k₀ with
      | true => simp [List.lookup, hb] at h
      | false =>
          simp only [List.lookup, hb] at h
          have hne : ¬ k₀ = k := by
            intro hk; subst hk; simp at hb
          simp [mapDelete, hne, ih h]

/-! ## Claim C5: broadcast fan-out survives a throwing subscriber -/

theorem broadcastRun_invoked (e : Event) (subs : List (String × (Event → Bool))) :
    (broadcastRun e subs).2 = subs.map Prod.fst := by
  induction subs with
  | nil => simp [broadcastRun]
  | cons p rest ih =>
      obtain ⟨cid, cb⟩ := p
      cases hb : cb e <;> simp [broadcastRun, hb, ih]

theorem broadcastRun_kept (e : Event) (subs : List (String × (Event → Bool))) :
    (broadcastRun e subs).1 = subs.filter (fun p => p.2 e) := by
  induction subs with
  | nil => simp [broadcastRun]
  | cons p rest ih =>
      obtain ⟨cid, cb⟩ := p
      cases hb : cb e <;> simp [broadcastRun, hb, ih, List.filter]

/-- C5: for every broadcast, every subscriber callback in the map is
invoked in iteration order (a throw never stops fan-out and never escapes
to the caller, broadcastRun being a total function); the surviving map
keeps exactly the subscribers whose callback returned normally, so a
throwing subscriber is removed while every other subscriber both receives
the event and stays subscribed. -/
theorem claim_C5 (e : Event) (subs : List (String × (Event → Bool))) :
    (broadcastRun e subs).2 = subs.map Prod.fst ∧
    (broadcastRun e subs).1 = subs.filter (fun p => p.2 e) ∧
    (∀ p ∈ subs, p.2 e = true → p ∈ (broadcastRun e subs).1) ∧
    (∀ p ∈ subs, p.2 e = false → p ∉ (broadcastRun e subs).1) := by
  refine ⟨broadcastRun_invoked e subs, broadcastRun_kept e subs, ?_, ?_⟩
  · intro p hp hcb
    rw [broadcastRun_kept]
    exact List.mem_filter.mpr ⟨hp, by simp [hcb]⟩
  · intro p hp hcb hmem
    rw [broadcastRun_kept] at hmem
    have := (List.mem_filter.mp hmem).2
    simp [hcb] at this

/-- Witness for C5 on three concrete subscribers with the middle one
throwing: all three are invoked, the thrower is dropped, the third still
receives the event. -/
theorem claim_C5_witness :
    (broadcastRun (.error "x") demoSubs).2 = ["a", "b", "c"] ∧
    ("b", demoCbFalse) ∉ (broadcastRun (.error "x") demoSubs).1 ∧
    ("c", demoCbTrue) ∈ (broadcastRun (.error "x") demoSubs).1 := by
  refine ⟨?_, ?_, ?_⟩
  · have h := (claim_C5 (.error "x") demoSubs).1
    simpa [demoSubs] using h
  · exact (claim_C5 (.error "x") demoSubs).2.2.2 ("b", demoCbFalse)
      (by simp [demoSubs]) rfl
  · exact (claim_C5 (.error "x") demoSubs).2.2.1 ("c", demoCbTrue)
      (by simp [demoSubs]) rfl

/-! ## Claim C10: getOrCreateSession is idempotent on the registry -/

/-- C10: when a ManagedSession for the name is already in the in-memory
map, getOrCreateSession returns that very instance, leaves the registry
untouched and performs no effect (no database call, no sessions_changed
event); the sessions_changed event is emitted exactly on the call that
creates the in-memory session, which also stores the new instance. -/
theorem claim_C10 (sm : SMState) (name createdBy : String) (db : DbSession) :
    (∀ s, sm.sessions.lookup name = some s →
        sm.getOrCreateSession name createdBy db = (s, sm, [])) ∧
    (sm.sessions.lookup name = none →
        (sm.getOrCreateSession name createdBy db).2.2 =
          [.dbGetOrCreateByName name createdBy, .engineCreate db.sdk_session_id,
           .sessionsChanged] ∧
        (sm.getOrCreateSession name createdBy db).1 = newManagedSession db ∧
        (sm.getOrCreateSession name createdBy db).2.1.sessions.lookup name =
          some (newManagedSession db)) := by
  constructor
  · intro s h
    simp [SMState.getOrCreateSession, h]
  · intro h
    refine ⟨by simp [SMState.getOrCreateSession, h], by simp [SMState.getOrCreateSession, h], ?_⟩
    simp only [SMState.getOrCreateSession, h]
    exact lookup_mapSet_self name (newManagedSession db) sm.sessions

/-- Witness for C10: looking up an already-registered conversation returns
the stored instance with no effects. -/
theorem claim_C10_witness :
    SMState.getOrCreateSession
        { sessions := [("main", idleSession)], clientSessions := [] }
        "main" "web" { id := "s1", name := "main", sdk_session_id := none } =
      (idleSession, { sessions := [("main", idleSession)], clientSessions := [] }, []) :=
  (claim_C10 { sessions := [("main", idleSession)], clientSessions := [] }
      "main" "web" { id := "s1", name := "main", sdk_session_id := none }).1
    idleSession (by simp [List.lookup])

/-! ## Claim C1: single-flight busy rejection in sendMessage -/

/-- C1: a sendMessage on a Processing session only broadcasts the busy
error and returns with the state unchanged — the exact trace shows no
persistence, no media snapshot and no engine forward — and conversely any
engine forward attempt in a sendMessage trace implies the session was not
Processing when the call arrived, so only a non-Processing session ever
forwards a message. -/
theorem claim_C1 (st : SessionState) (world : List String) (now : Nat)
    (content source : String) (sendError retryError : Option String) :
    (st.isProcessing = true →
        sendMessage st world now content source sendError retryError =
          (st, [.broadcastEvent (.error busyErrorText)])) ∧
    (∀ c, Effect.engineSendAttempt c ∈
        (sendMessage st world now content source sendError retryError).2 →
        st.isProcessing = false) := by
  constructor
  · intro h
    simp [sendMessage, h]
  · intro c hc
    by_cases h : st.isProcessing
    · simp [sendMessage, h] at hc
    · simpa using h

/-- Witness for C1: the busy rejection on a concrete Processing session. -/
theorem claim_C1_witness :
    sendMessage processingSession [] 0 "hi" "web" none none =
      (processingSession, [.broadcastEvent (.error busyErrorText)]) :=
  (claim_C1 processingSession [] 0 "hi" "web" none none).1 rfl

/-! ## Claim C6: UpdateTracker first-time false, then true, strict FIFO -/

theorem UpdateTracker.run_fill (ids : List Int) :
    ∀ t : UpdateTracker, t.processedIds = t.orderedIds →
      (t.orderedIds ++ ids).Nodup →
      t.orderedIds.length + ids.length ≤ t.maxSize →
      (t.run ids).processedIds = t.orderedIds ++ ids ∧
      (t.run ids).orderedIds = t.orderedIds ++ ids ∧
      (t.run ids).maxSize = t.maxSize := by
  induction ids with
  | nil =>
      intro t h1 _ _
      simp [UpdateTracker.run, h1]
  | cons i rest ih =>
      intro t h1 h2 h3
      have hi : i ∉ t.orderedIds := by
        rcases List.nodup_append.mp h2 with ⟨_, _, hdisj⟩
        exact fun hmem => hdisj hmem (List.mem_cons_self i rest)
      have hnoEvict : ¬ t.maxSize < t.orderedIds.length + 1 := by
        simp only [List.length_cons] at h3
        omega
      have hstep : (t.isDuplicate i).2 =
          { t with processedIds := t.orderedIds ++ [i], orderedIds := t.orderedIds ++ [i] } := by
        simp [UpdateTracker.isDuplicate, h1, hi, hnoEvict]
      have hrun : t.run (i :: rest) = ((t.isDuplicate i).2).run rest := by
        simp [UpdateTracker.run]
      rw [hrun, hstep]
      have h2 : ((t.orderedIds ++ [i]) ++ rest).Nodup := by
        simpa [List.append_assoc] using h2
      have h3 : (t.orderedIds ++ [i]).length + rest.length ≤ t.maxSize := by
        simp only [List.length_append, List.length_singleton]
        simp only [List.length_cons] at h3
        omega
      have := ih { t with processedIds := t.orderedIds ++ [i], orderedIds := t.orderedIds ++ [i] }
        rfl h2 h3
      simpa [List.append_assoc] using this

/-- C6: for every tracker, an already-tracked id answers true with the
state unchanged (every later presentation while tracked) and an untracked
id answers false (the first presentation); after filling a fresh tracker
of capacity c with c distinct ids, presenting one more fresh id answers
false and evicts exactly the single oldest recorded id (strict FIFO), so
presenting that evicted id afterwards answers false again. -/
theorem claim_C6 (c : Nat) (ids : List Int) (x : Int)
    (hnd : ids.Nodup) (hlen : ids.length = c) (hx : x ∉ ids) (hc : 0 < c) :
    (∀ (t : UpdateTracker) (y : Int), y ∈ t.processedIds → t.isDuplicate y = (true, t)) ∧
    (∀ (t : UpdateTracker) (y : Int), y ∉ t.processedIds → (t.isDuplicate y).1 = false) ∧
    ((((UpdateTracker.new c).run ids).isDuplicate x).1 = false) ∧
    ((((UpdateTracker.new c).run ids).isDuplicate x).2.orderedIds = ids.tail ++ [x]) ∧
    ((((UpdateTracker.new c).run ids).isDuplicate x).2.processedIds = ids.tail ++ [x]) ∧
    (∀ hne : ids ≠ [],
        (((((UpdateTracker.new c).run ids).isDuplicate x).2).isDuplicate (ids.head hne)).1
          = false) := by
  have hgen1 : ∀ (t : UpdateTracker) (y : Int), y ∈ t.processedIds →
      t.isDuplicate y = (true, t) := by
    intro t y hy
    simp [UpdateTracker.isDuplicate, hy]
  have hgen2 : ∀ (t : UpdateTracker) (y : Int), y ∉ t.processedIds →
      (t.isDuplicate y).1 = false := by
    intro t y hy
    simp only [UpdateTracker.isDuplicate]
    rw [if_neg (by simpa using hy)]
    split <;> rfl
  have hfill := UpdateTracker.run_fill ids (UpdateTracker.new c)
    rfl (by simpa [UpdateTracker.new] using hnd) (by simp [UpdateTracker.new, hlen])
  obtain ⟨hp, ho, hm⟩ := hfill
  cases ids with
  | nil => simp at hlen; omega
  | cons i₀ tl =>
      have hp2 : ((UpdateTracker.new c).run (i₀ :: tl)).processedIds = i₀ :: tl := hp
      have ho2 : ((UpdateTracker.new c).run (i₀ :: tl)).orderedIds = i₀ :: tl := ho
      have hm2 : ((UpdateTracker.new c).run (i₀ :: tl)).maxSize = c := hm
      have hrunEq : (UpdateTracker.new c).run (i₀ :: tl) = ⟨i₀ :: tl, i₀ :: tl, c⟩ := by
        rw [show (UpdateTracker.new c).run (i₀ :: tl) =
            (⟨((UpdateTracker.new c).run (i₀ :: tl)).processedIds,
              ((UpdateTracker.new c).run (i₀ :: tl)).orderedIds,
              ((UpdateTracker.new c).run (i₀ :: tl)).maxSize⟩ : UpdateTracker) from rfl,
          hp2, ho2, hm2]
      have hlt : c < (i₀ :: tl).length + 1 := by
        rw [hlen]
        omega
      have hstep : ((⟨i₀ :: tl, i₀ :: tl, c⟩ : UpdateTracker).isDuplicate x) =
          (false, ⟨tl ++ [x], tl ++ [x], c⟩) := by
        simp only [UpdateTracker.isDuplicate]
        rw [if_neg (by simpa using hx)]
        simp only [List.length_append, List.length_cons, List.length_nil]
        rw [if_pos (by simpa using hlt)]
        simp [List.cons_append, List.erase_cons_head]
      rw [hrunEq, hstep]
      refine ⟨hgen1, hgen2, rfl, rfl, rfl, ?_⟩
      intro hne
      have hhead : (i₀ :: tl).head hne = i₀ := rfl
      rw [hhead]
      apply hgen2
      have h1 : i₀ ∉ tl := (List.nodup_cons.mp hnd).1
      have h2 : i₀ ≠ x := fun h => hx (h ▸ List.mem_cons_self i₀ tl)
      simp [h1, h2]

/-- Witness for C6 at capacity 3 with ids 1,2,3 and fresh id 4: inserting
4 evicts 1 and re-presenting 1 answers false. -/
theorem claim_C6_witness :
    ((((UpdateTracker.new 3).run [1, 2, 3]).isDuplicate 4).1 = false) ∧
    ((((UpdateTracker.new 3).run [1, 2, 3]).isDuplicate 4).2.orderedIds = [2, 3, 4]) ∧
    (((((UpdateTracker.new 3).run [1, 2, 3]).isDuplicate 4).2).isDuplicate 1).1 = false := by
  have h := claim_C6 3 [1, 2, 3] 4 (by decide) rfl (by decide) (by decide)
  refine ⟨h.2.2.1, ?_, ?_⟩
  · have := h.2.2.2.1
    simpa using this
  · have := h.2.2.2.2.2 (by decide)
    simpa using this

/-! ## Claim C7: FragmentBuffer buffering condition and flush contract -/

theorem FragmentBuffer.fragmentAddAll_spec (c : Int) (pairs : List (Int × String)) :
    ∀ (l : List (Int × BufferedMessage)) (th : Nat) (b : BufferedMessage) (now : Nat),
      l.lookup c = none →
      FragmentBuffer.addAll ⟨l ++ [(c, b)], th⟩ c pairs now =
        ⟨l ++ [(c, ⟨b.chatId, b.fragments ++ pairs.map Prod.snd, b.firstMessageId,
          if pairs = [] then b.lastUpdate else now⟩)], th⟩ := by
  induction pairs with
  | nil =>
      intro l th b now _
      simp [FragmentBuffer.addAll]
  | cons p rest ih =>
      intro l th b now h
      have hadd : FragmentBuffer.add ⟨l ++ [(c, b)], th⟩ c p.1 p.2 now =
          (true, ⟨l ++ [(c, ⟨b.chatId, b.fragments ++ [p.2], b.firstMessageId, now⟩)], th⟩) := by
        simp only [FragmentBuffer.add, lookup_append_single c b l h]
        rw [show mapSet c { b with fragments := b.fragments ++ [p.2], lastUpdate := now }
              (l ++ [(c, b)]) =
            l ++ [(c, { b with fragments := b.fragments ++ [p.2], lastUpdate := now })] from
          mapSet_append_single c _ b l h]
      have hstep : FragmentBuffer.addAll ⟨l ++ [(c, b)], th⟩ c (p :: rest) now =
          FragmentBuffer.addAll
            ⟨l ++ [(c, ⟨b.chatId, b.fragments ++ [p.2], b.firstMessageId, now⟩)], th⟩
            c rest now := by
        simp [FragmentBuffer.addAll, hadd]
      rw [hstep, ih l th ⟨b.chatId, b.fragments ++ [p.2], b.firstMessageId, now⟩ now h]
      cases hr : rest with
      | nil => simp
      | cons q qs => simp [List.append_assoc]

/-- C7: add returns false exactly when no buffer exists for the chat and
the text is below the fragment threshold; in every other case (a buffer
exists, or the text reaches the threshold) the text is buffered and add
returns true; and firing the debounce flush on a chat buffered by a
threshold-length first fragment followed by any further fragments hands
the callback that chat id, the concatenation of all fragments in arrival
order and the first fragment id, and deletes the buffer. -/
theorem claim_C7 (fb : FragmentBuffer) (c m : Int) (text : String) (now : Nat)
    (pairs : List (Int × String))
    (hc : fb.buffers.lookup c = none) (ht : fb.fragmentThreshold ≤ text.length) :
    (∀ (fb₂ : FragmentBuffer) (c₂ m₂ : Int) (t₂ : String) (n₂ : Nat),
        ((fb₂.add c₂ m₂ t₂ n₂).1 = false ↔
          fb₂.buffers.lookup c₂ = none ∧ t₂.length < fb₂.fragmentThreshold)) ∧
    ((fb.add c m text now).1 = true) ∧
    (((fb.add c m text now).2.addAll c pairs now).buffers.lookup c =
        some ⟨c, text :: pairs.map Prod.snd, m, now⟩) ∧
    (((fb.add c m text now).2.addAll c pairs now).flush c =
        (fb, some (c, String.join (text :: pairs.map Prod.snd), m))) := by
  have hgen : ∀ (fb₂ : FragmentBuffer) (c₂ m₂ : Int) (t₂ : String) (n₂ : Nat),
      ((fb₂.add c₂ m₂ t₂ n₂).1 = false ↔
        fb₂.buffers.lookup c₂ = none ∧ t₂.length < fb₂.fragmentThreshold) := by
    intro fb₂ c₂ m₂ t₂ n₂
    simp only [FragmentBuffer.add]
    cases hl : fb₂.buffers.lookup c₂ with
    | some b => simp [hl]
    | none =>
        by_cases hth : fb₂.fragmentThreshold ≤ t₂.length
        all_goals simp [hth]
        all_goals omega
  have hadd1 : fb.add c m text now =
      (true, ⟨fb.buffers ++ [(c, ⟨c, [text], m, now⟩)], fb.fragmentThreshold⟩) := by
    simp only [FragmentBuffer.add, hc]
    rw [if_pos ht, mapSet_of_lookup_none c _ fb.buffers hc]
  have hall : ((fb.add c m text now).2.addAll c pairs now) =
      ⟨fb.buffers ++ [(c, ⟨c, text :: pairs.map Prod.snd, m, now⟩)], fb.fragmentThreshold⟩ := by
    rw [hadd1]
    have := FragmentBuffer.fragmentAddAll_spec c pairs fb.buffers fb.fragmentThreshold
      ⟨c, [text], m, now⟩ now hc
    rw [this]
    cases hr : pairs with
    | nil => simp
    | cons q qs => simp
  refine ⟨hgen, by rw [hadd1], ?_, ?_⟩
  · rw [hall]
    exact lookup_append_single c _ fb.buffers hc
  · rw [hall]
    simp only [FragmentBuffer.flush, lookup_append_single c _ fb.buffers hc]
    rw [mapDelete_append_single c _ fb.buffers hc]

/-- Witness for C7: a threshold-length fragment followed by a short tail
fragment flushes as one concatenated message carrying the first id. -/
theorem claim_C7_witness :
    ((((⟨[], 3⟩ : FragmentBuffer).add 7 100 "abcd" 0).2.addAll 7 [(101, "ef")] 0).flush 7 =
      ((⟨[], 3⟩ : FragmentBuffer), some (7, String.join ["abcd", "ef"], 100))) ∧
    (((⟨[], 3⟩ : FragmentBuffer).add 7 100 "abcd" 0).1 = true) := by
  have h := claim_C7 (⟨[], 3⟩ : FragmentBuffer) 7 100 "abcd" 0 [(101, "ef")]
    (by simp [List.lookup]) (by decide)
  exact ⟨h.2.2.2, h.2.1⟩

/-! ## Claim C9: MediaGroupBuffer keyed by group id alone -/

theorem MediaGroupBuffer.mediaAddAll_spec (gid : String) (calls : List MediaAddCall)
    (hgid : gid ≠ "") :
    ∀ (l : List (String × BufferedMediaGroup)) (g : BufferedMediaGroup),
      l.lookup gid = none →
      MediaGroupBuffer.addAll ⟨l ++ [(gid, g)]⟩ gid calls =
        ⟨l ++ [(gid, ⟨g.chatId, g.mediaGroupId, g.items ++ calls.map MediaAddCall.item,
          g.firstMessageId⟩)]⟩ := by
  induction calls with
  | nil =>
      intro l g _
      simp [MediaGroupBuffer.addAll]
  | cons cc rest ih =>
      intro l g h
      have hadd : MediaGroupBuffer.add ⟨l ++ [(gid, g)]⟩ cc.chatId (some gid) cc.messageId
          cc.type cc.fileId cc.caption =
          (true, ⟨l ++ [(gid, ⟨g.chatId, g.mediaGroupId, g.items ++ [cc.item],
            g.firstMessageId⟩)]⟩) := by
        simp only [MediaGroupBuffer.add, lookup_append_single gid g l h]
        rw [if_neg hgid]
        rw [show mapSet gid { g with items := g.items ++ [⟨cc.type, cc.fileId, cc.caption, cc.messageId⟩] }
              (l ++ [(gid, g)]) =
            l ++ [(gid, { g with items := g.items ++ [⟨cc.type, cc.fileId, cc.caption, cc.messageId⟩] })] from
          mapSet_append_single gid _ g l h]
        rfl
      have hstep : MediaGroupBuffer.addAll ⟨l ++ [(gid, g)]⟩ gid (cc :: rest) =
          MediaGroupBuffer.addAll
            ⟨l ++ [(gid, ⟨g.chatId, g.mediaGroupId, g.items ++ [cc.item], g.firstMessageId⟩)]⟩
            gid rest := by
        simp [MediaGroupBuffer.addAll, hadd]
      rw [hstep, ih l ⟨g.chatId, g.mediaGroupId, g.items ++ [cc.item], g.firstMessageId⟩ h]
      simp [List.append_assoc]

/-- C9: an add with no group id returns false with every buffer unchanged;
for a sequence of adds sharing one non-empty group id on a buffer with no
group under that id, the first add creates the group and every add returns
true, and the single flush carries all items in arrival order together
with the chatId and messageId of the first add (later chatId values are
ignored); after the flush the group is gone, so flushing again produces
nothing. -/
theorem claim_C9 (b : MediaGroupBuffer) (gid : String) (c₀ m₀ : Int) (ty₀ fid₀ : String)
    (cap₀ : Option String) (calls : List MediaAddCall)
    (hg : b.groups.lookup gid = none) (hgid : gid ≠ "") :
    (∀ (b₂ : MediaGroupBuffer) (c m : Int) (ty fid : String) (cap : Option String),
        b₂.add c none m ty fid cap = (false, b₂)) ∧
    ((b.add c₀ (some gid) m₀ ty₀ fid₀ cap₀).1 = true) ∧
    (∀ (b₂ : MediaGroupBuffer) (c m : Int) (ty fid : String) (cap : Option String) (g : BufferedMediaGroup),
        b₂.groups.lookup gid = some g → (b₂.add c (some gid) m ty fid cap).1 = true) ∧
    (((b.add c₀ (some gid) m₀ ty₀ fid₀ cap₀).2.addAll gid calls).flush gid =
        (b, some ⟨c₀, gid, ⟨ty₀, fid₀, cap₀, m₀⟩ :: calls.map MediaAddCall.item, m₀⟩)) ∧
    (((((b.add c₀ (some gid) m₀ ty₀ fid₀ cap₀).2.addAll gid calls).flush gid).1.flush gid).2
        = none) := by
  have hadd1 : b.add c₀ (some gid) m₀ ty₀ fid₀ cap₀ =
      (true, ⟨b.groups ++ [(gid, ⟨c₀, gid, [⟨ty₀, fid₀, cap₀, m₀⟩], m₀⟩)]⟩) := by
    simp only [MediaGroupBuffer.add, hg]
    rw [if_neg hgid, mapSet_of_lookup_none gid _ b.groups hg]
  have hall : ((b.add c₀ (some gid) m₀ ty₀ fid₀ cap₀).2.addAll gid calls) =
      ⟨b.groups ++ [(gid, ⟨c₀, gid, ⟨ty₀, fid₀, cap₀, m₀⟩ :: calls.map MediaAddCall.item, m₀⟩)]⟩ := by
    rw [hadd1]
    have := MediaGroupBuffer.mediaAddAll_spec gid calls hgid b.groups
      ⟨c₀, gid, [⟨ty₀, fid₀, cap₀, m₀⟩], m₀⟩ hg
    rw [this]
    rfl
  have hflush : (((b.add c₀ (some gid) m₀ ty₀ fid₀ cap₀).2.addAll gid calls).flush gid) =
      (b, some ⟨c₀, gid, ⟨ty₀, fid₀, cap₀, m₀⟩ :: calls.map MediaAddCall.item, m₀⟩) := by
    rw [hall]
    simp only [MediaGroupBuffer.flush, lookup_append_single gid _ b.groups hg]
    rw [mapDelete_append_single gid _ b.groups hg]
  refine ⟨?_, by rw [hadd1], ?_, hflush, ?_⟩
  · intro b₂ c m ty fid cap
    simp [MediaGroupBuffer.add]
  · intro b₂ c m ty fid cap g hgl
    simp [MediaGroupBuffer.add, hgl, hgid]
  · rw [hflush]
    simp [MediaGroupBuffer.flush, hg]

/-- Witness for C9: two album items under one group id, the second sent
from a different chat, flush as one group carrying the first chat and
message id; a second flush yields nothing. -/
theorem claim_C9_witness :
    ((((⟨[]⟩ : MediaGroupBuffer).add 7 (some "g1") 100 "photo" "f1" none).2.addAll "g1"
        [⟨8, 101, "video", "f2", some "cap"⟩]).flush "g1" =
      ((⟨[]⟩ : MediaGroupBuffer),
       some ⟨7, "g1", [⟨"photo", "f1", none, 100⟩, ⟨"video", "f2", some "cap", 101⟩], 100⟩)) ∧
    ((⟨[]⟩ : MediaGroupBuffer).add 7 none 100 "photo" "f1" none =
      (false, (⟨[]⟩ : MediaGroupBuffer))) := by
  have h := claim_C9 (⟨[]⟩ : MediaGroupBuffer) "g1" 7 100 "photo" "f1" none
    [⟨8, 101, "video", "f2", some "cap"⟩] (by simp [List.lookup]) (by decide)
  refine ⟨?_, h.1 (⟨[]⟩ : MediaGroupBuffer) 7 100 "photo" "f1" none⟩
  have := h.2.2.2.1
  simpa [MediaAddCall.item] using this

/-! ## Claim C8: reply mode first and resetFirst -/

/-- Counterexample to C8: in mode first, record message 10 for chat 1,
call resetFirst, then record message 20 — the claim says the call returns
20, but recordUserMessage only sets the first pointer when it creates the
context, so after resetFirst it returns no id at all. -/
theorem claim_C8_counterexample :
    ((replyDemo.recordUserMessage 1 10).1 = some 10) ∧
    ((((replyDemo.recordUserMessage 1 10).2.resetFirst 1).recordUserMessage 1 20).1 ≠ some 20) ∧
    ((((replyDemo.recordUserMessage 1 10).2.resetFirst 1).recordUserMessage 1 20).1 = none) := by
  decide

theorem lookup_mapSet_ne {K V : Type} [BEq K] [LawfulBEq K] [DecidableEq K]
    (k k₂ : K) (v : V) (l : List (K × V)) (h : k₂ ≠ k) :
    (mapSet k v l).lookup k₂ = l.lookup k₂ := by
  induction l with
  | nil =>
      have hb : (k₂ == k) = false := by
        simp only [beq_eq_false_iff_ne]; exact h
      simp [mapSet, List.lookup, hb]
  | cons p rest ih =>
      obtain ⟨k₀, v₀⟩ := p
      by_cases hk : k₀ = k
      · subst hk
        have hb : (k₂ == k₀) = false := by
          simp only [beq_eq_false_iff_ne]; exact h
        simp [mapSet, List.lookup, hb]
      · simp [mapSet, hk, List.lookup, ih]

/-- C8 amended: under mode first, recordUserMessage returns the id of the
first user message recorded since the context for that chat was created —
the first call on a fresh chat returns its own id and later calls keep
returning that same id; but after resetFirst the first pointer is null,
so recordUserMessage under mode first returns no id for that chat (not
the next message id) until the context is cleared and recreated; and
resetFirst affects neither getReplyToId nor recordUserMessage under mode
all, which keeps returning the most recent id. -/
theorem claim_C8_amended (m : ReplyModeManager) (c i j : Int) (ctx : ReplyContext) :
    (m.mode = .first → m.contexts.lookup c = none →
        (m.recordUserMessage c i).1 = some i) ∧
    (m.mode = .first → m.contexts.lookup c = some ctx →
        (m.recordUserMessage c i).1 = ctx.firstMessageId) ∧
    (m.mode = .first → m.contexts.lookup c = some ctx →
        ((m.resetFirst c).recordUserMessage c i).1 = none) ∧
    (m.mode = .all → ((m.resetFirst c).recordUserMessage c i).1 = some i) ∧
    (m.mode = .all → c ≠ j → (m.resetFirst j).getReplyToId c = m.getReplyToId c) := by
  refine ⟨?_, ?_, ?_, ?_, ?_⟩
  · intro hm hc
    simp only [ReplyModeManager.recordUserMessage, hc, ReplyModeManager.getReplyToId,
      lookup_mapSet_self, hm]
  · intro hm hc
    simp only [ReplyModeManager.recordUserMessage, hc, ReplyModeManager.getReplyToId,
      lookup_mapSet_self, hm]
  · intro hm hc
    simp only [ReplyModeManager.resetFirst, hc, ReplyModeManager.recordUserMessage,
      lookup_mapSet_self, ReplyModeManager.getReplyToId, hm]
  · intro hm
    simp only [ReplyModeManager.resetFirst, ReplyModeManager.recordUserMessage,
      ReplyModeManager.getReplyToId, hm]
    cases hc : m.contexts.lookup c with
    | none => simp [hc, lookup_mapSet_self, hm]
    | some g => simp [hc, lookup_mapSet_self, hm]
  · intro hm hcj
    simp only [ReplyModeManager.resetFirst, ReplyModeManager.getReplyToId]
    cases hj : m.contexts.lookup j with
    | none => simp [hj, hm]
    | some g => simp [hj, hm, lookup_mapSet_ne j c _ m.contexts hcj]

/-- Witness for C8 amended: in mode first the second record still returns
the first id; after resetFirst it returns none; in mode all resetFirst
leaves the returned id the most recent one. -/
theorem claim_C8_amended_witness :
    (((replyDemo.recordUserMessage 1 10).2.recordUserMessage 1 20).1 = some 10) ∧
    ((((replyDemo.recordUserMessage 1 10).2.resetFirst 1).recordUserMessage 1 20).1 = none) ∧
    ((({ contexts := [], mode := .all } : ReplyModeManager).resetFirst 1).recordUserMessage
        1 20).1 = some 20 := by
  refine ⟨?_, ?_, ?_⟩
  · exact ((claim_C8_amended (replyDemo.recordUserMessage 1 10).2 1 20 0
      ⟨1, some 10, 10⟩).2.1 rfl (by decide))
  · exact ((claim_C8_amended (replyDemo.recordUserMessage 1 10).2 1 20 0
      ⟨1, some 10, 10⟩).2.2.1 rfl (by decide))
  · exact ((claim_C8_amended ({ contexts := [], mode := .all } : ReplyModeManager) 1 20 0
      ⟨1, none, 0⟩).2.2.2.1 rfl)

/-! ## Loop lemmas shared by C2, C3 and C4 -/

theorem handleSDK_preserves (mp : String) (world : List String) (st : SessionState)
    (msg : SDKMessage) :
    (handleSDKMessage mp world st msg).1.sessionName = st.sessionName ∧
    (handleSDKMessage mp world st msg).1.isResetting = st.isResetting ∧
    (handleSDKMessage mp world st msg).1.isListening = st.isListening := by
  cases msg with
  | systemInit sid? =>
      cases sid? with
      | none => exact ⟨rfl, rfl, rfl⟩
      | some sid =>
          by_cases h : sid ≠ "" ∧ st.sdkSessionId ≠ some sid <;>
            simp [handleSDKMessage, h]
  | systemStatus s =>
      by_cases h : s = "compacting" <;> simp [handleSDKMessage, h]
  | systemCompactBoundary p t => exact ⟨rfl, rfl, rfl⟩
  | assistantStr c => exact ⟨rfl, rfl, rfl⟩
  | assistantBlocks bs => exact ⟨rfl, rfl, rfl⟩
  | result sub cost dur usage =>
      simp only [handleSDKMessage]
      split <;> simp
  | otherMsg => exact ⟨rfl, rfl, rfl⟩

theorem runLoop_preserves (mp : String) (world : List String) (msgs : List SDKMessage) :
    ∀ st : SessionState,
      (runLoop mp world st msgs).1.sessionName = st.sessionName ∧
      (runLoop mp world st msgs).1.isResetting = st.isResetting ∧
      (runLoop mp world st msgs).1.isListening = st.isListening := by
  induction msgs with
  | nil => intro st; exact ⟨rfl, rfl, rfl⟩
  | cons m rest ih =>
      intro st
      have h1 := handleSDK_preserves mp world st m
      have h2 := ih (handleSDKMessage mp world st m).1
      simp only [runLoop]
      exact ⟨h2.1.trans h1.1, h2.2.1.trans h1.2.1, h2.2.2.trans h1.2.2⟩

theorem broadcasts_reset (s : SessionState) :
    broadcastsOf (resetAgentSession s).2 = [] := by
  by_cases h : s.isResetting <;> simp [resetAgentSession, h, broadcastsOf]

theorem handleSDK_broadcasts (mp : String) (world : List String) (st : SessionState)
    (msg : SDKMessage) :
    ∀ e ∈ broadcastsOf (handleSDKMessage mp world st msg).2,
      e.sessionNameField = some st.sessionName := by
  intro e he
  cases msg with
  | systemInit sid? =>
      cases sid? with
      | none => simp [handleSDKMessage, broadcastsOf] at he
      | some sid =>
          by_cases h : sid ≠ "" ∧ st.sdkSessionId ≠ some sid <;>
            simp [handleSDKMessage, h, broadcastsOf] at he
  | systemStatus s =>
      by_cases h : s = "compacting" <;> simp [handleSDKMessage, h, broadcastsOf] at he
      subst he
      rfl
  | systemCompactBoundary p t =>
      simp [handleSDKMessage, broadcastsOf] at he
      subst he
      rfl
  | assistantStr c =>
      simp [handleSDKMessage, broadcastsOf, assistantEffects] at he
      subst he
      rfl
  | assistantBlocks bs =>
      simp only [handleSDKMessage, broadcastsOf, List.filterMap_flatten,
        List.map_map] at he
      rw [List.mem_flatten] at he
      obtain ⟨l, hl, hel⟩ := he
      rw [List.mem_map] at hl
      obtain ⟨b, _, hbl⟩ := hl
      subst hbl
      cases b with
      | text t =>
          simp [assistantEffects, broadcastsOf] at hel
          subst hel; rfl
      | tool_use n i inp =>
          simp [broadcastsOf] at hel
          subst hel; rfl
      | otherBlock => simp [broadcastsOf] at hel
  | result sub cost dur usage =>
      simp only [handleSDKMessage] at he
      by_cases hs : sub = "success"
      · simp only [hs, if_true, eq_self_iff_true,
          broadcastsOf, List.filterMap_append, List.mem_append] at he
        rcases he with ((he | he) | he) | he
        · cases usage with
          | none => simp at he
          | some u =>
              by_cases hu : 0 < u.input_tokens + u.cache_read_input_tokens +
                  u.cache_creation_input_tokens
              · simp [hu] at he
                subst he; rfl
              · simp [hu] at he
        · simp at he
          subst he; rfl
        · simp only [List.filterMap_map] at he
          rw [List.mem_filterMap] at he
          obtain ⟨fp, _, hfp⟩ := he
          simp at hfp
          subst hfp; rfl
        · split at he <;> simp at he
      · simp only [hs, if_false, eq_self_iff_true,
          broadcastsOf, List.filterMap_append, List.mem_append] at he
        rcases he with he | he
        · cases usage with
          | none => simp at he
          | some u =>
              by_cases hu : 0 < u.input_tokens + u.cache_read_input_tokens +
                  u.cache_creation_input_tokens
              · simp [hu] at he
                subst he; rfl
              · simp [hu] at he
        · simp at he
          subst he; rfl
  | otherMsg => simp [handleSDKMessage, broadcastsOf] at he

theorem runLoop_broadcasts (mp : String) (world : List String) (msgs : List SDKMessage) :
    ∀ (st : SessionState), ∀ e ∈ broadcastsOf (runLoop mp world st msgs).2,
      e.sessionNameField = some st.sessionName := by
  induction msgs with
  | nil => intro st e he; simp [runLoop, broadcastsOf] at he
  | cons m rest ih =>
      intro st e he
      simp only [runLoop, broadcastsOf, List.filterMap_append] at he
      rw [List.mem_append] at he
      rcases he with he | he
      · exact handleSDK_broadcasts mp world st m e he
      · have := ih (handleSDKMessage mp world st m).1 e he
        rw [(handleSDK_preserves mp world st m).1] at this
        exact this

/-! ## Claim C2: the output loop always clears the flags and recovers -/

theorem startListening_throws_eq (mediaPath : String) (world : List String)
    (st : SessionState) (msgs : List SDKMessage) (err : String)
    (hL : st.isListening = false) (hR : st.isResetting = false) :
    startListening mediaPath world st (.throws msgs err) =
      ({ (runLoop mediaPath world { st with isListening := true } msgs).1 with
          sdkSessionId := none, isListening := false, isProcessing := false },
       (runLoop mediaPath world { st with isListening := true } msgs).2 ++
         [.broadcastEvent (.error err), .activity "error" ("Session error: " ++ err),
          .dbClearSdkSessionId] ++ [.engineClose, .engineCreate none]) := by
  have hres : (runLoop mediaPath world { st with isListening := true } msgs).1.isResetting
      = false := by
    rw [(runLoop_preserves mediaPath world msgs { st with isListening := true }).2.1]
    exact hR
  simp only [startListening, hL, Bool.false_eq_true, if_false]
  simp only [resetAgentSession]
  simp only [hres, Bool.false_eq_true, if_false]

/-- C2: when the output-driving loop actually runs (not already listening,
no reset in flight) and terminates — stream end or raised error — the
Processing and listening flags are false afterwards; on a raised error the
error is broadcast, the resume token is cleared in memory and in
persistence, and a fresh engine session is created without a token, so a
subsequent sendMessage on the same conversation is not rejected busy and
forwards to the engine. -/
theorem claim_C2 (st : SessionState) (mediaPath : String) (world : List String)
    (msgs : List SDKMessage) (err : String)
    (hL : st.isListening = false) (hR : st.isResetting = false) :
    ((startListening mediaPath world st (.ends msgs)).1.isProcessing = false ∧
     (startListening mediaPath world st (.ends msgs)).1.isListening = false) ∧
    ((startListening mediaPath world st (.throws msgs err)).1.isProcessing = false ∧
     (startListening mediaPath world st (.throws msgs err)).1.isListening = false ∧
     Effect.broadcastEvent (.error err) ∈
       (startListening mediaPath world st (.throws msgs err)).2 ∧
     (startListening mediaPath world st (.throws msgs err)).1.sdkSessionId = none ∧
     Effect.dbClearSdkSessionId ∈ (startListening mediaPath world st (.throws msgs err)).2 ∧
     Effect.engineCreate none ∈ (startListening mediaPath world st (.throws msgs err)).2 ∧
     (∀ (world₂ : List String) (now : Nat) (c s : String),
        Effect.engineSendAttempt c ∈
          (sendMessage (startListening mediaPath world st (.throws msgs err)).1
            world₂ now c s none none).2 ∧
        Effect.broadcastEvent (.error busyErrorText) ∉
          (sendMessage (startListening mediaPath world st (.throws msgs err)).1
            world₂ now c s none none).2)) := by
  have heq := startListening_throws_eq mediaPath world st msgs err hL hR
  constructor
  · constructor <;> simp [startListening, hL]
  · rw [heq]
    refine ⟨rfl, rfl, by simp, rfl, by simp, by simp, ?_⟩
    intro world₂ now c s
    constructor
    · simp [sendMessage]
    · simp [sendMessage, busyErrorText]

/-- Witness for C2 at a concrete crashed stream: flags cleared, token
cleared, error broadcast, and the next sendMessage forwards. -/
theorem claim_C2_witness :
    (startListening "/m" [] idleSession (.throws [] "boom")).1.isProcessing = false ∧
    (startListening "/m" [] idleSession (.throws [] "boom")).1.sdkSessionId = none ∧
    Effect.broadcastEvent (.error "boom") ∈
      (startListening "/m" [] idleSession (.throws [] "boom")).2 ∧
    Effect.engineSendAttempt "again" ∈
      (sendMessage (startListening "/m" [] idleSession (.throws [] "boom")).1
        [] 9 "again" "web" none none).2 := by
  have h := claim_C2 idleSession "/m" [] [] "boom" rfl rfl
  exact ⟨h.2.1, h.2.2.2.2.1, h.2.2.2.1, (h.2.2.2.2.2.2.2 [] 9 "again" "web").1⟩

/-! ## Claim C3: failed retry leaves the Processing flag set -/

/-- Counterexample to C3: on an idle session whose engine dispatch throws
twice, sendMessage broadcasts the failure error but returns with the
Processing flag still true — the claim says the session returns to Idle
(Processing false) after the failed retry, and the code does not. -/
theorem claim_C3_counterexample :
    (sendMessage idleSession [] 0 "hello" "web" (some "boom") (some "boom again")).1.isProcessing
      = true ∧
    Effect.broadcastEvent (.error ("Failed to send message: " ++ "boom again")) ∈
      (sendMessage idleSession [] 0 "hello" "web" (some "boom") (some "boom again")).2 := by
  constructor
  · rfl
  · simp [sendMessage, resetAgentSession, idleSession]

/-- C3 amended: on a non-Processing session whose engine dispatch throws,
sendMessage resets the engine session preserving the resume token and
retries exactly once; when the retry also throws it broadcasts the failure
error and returns — but with the Processing flag still set (sendMessage
never clears it; it is cleared only when the output loop next terminates),
not back in Idle as the claim states.  The full trace shows exactly two
forward attempts, the reset pair and the final error broadcast. -/
theorem claim_C3_amended (st : SessionState) (world : List String) (now : Nat)
    (content source e1 e2 : String)
    (hP : st.isProcessing = false) (hR : st.isResetting = false) :
    sendMessage st world now content source (some e1) (some e2) =
      ({ st with isProcessing := true, processingStartedAt := some now, mediaSnapshot := world, isListening := false },
       [.snapshotMedia world,
        .dbCreateMessage "user" content source,
        .broadcastEvent (.user_message content st.sessionName source),
        .activity "message" ("User: " ++ content.take 100 ++ "..."),
        .engineSendAttempt content,
        .engineClose,
        .engineCreate st.sdkSessionId,
        .engineSendAttempt content,
        .broadcastEvent (.error ("Failed to send message: " ++ e2))]) := by
  simp only [sendMessage, hP, Bool.false_eq_true, if_false]
  simp only [resetAgentSession]
  simp only [hR, Bool.false_eq_true, if_false]
  rfl

/-- Witness for C3 amended on a concrete double failure. -/
theorem claim_C3_amended_witness :
    sendMessage idleSession [] 0 "hello" "web" (some "x") (some "y") =
      ({ idleSession with isProcessing := true, processingStartedAt := some 0, mediaSnapshot := [], isListening := false },
       [.snapshotMedia [],
        .dbCreateMessage "user" "hello" "web",
        .broadcastEvent (.user_message "hello" idleSession.sessionName "web"),
        .activity "message" ("User: " ++ "hello".take 100 ++ "..."),
        .engineSendAttempt "hello",
        .engineClose,
        .engineCreate idleSession.sdkSessionId,
        .engineSendAttempt "hello",
        .broadcastEvent (.error ("Failed to send message: " ++ "y"))]) :=
  claim_C3_amended idleSession [] 0 "hello" "web" "x" "y" rfl rfl

/-! ## Claim C4: event envelopes and the sessionName field -/

/-- Counterexample to C4: the busy-path error event is broadcast with no
sessionName field at all — the claim says every broadcast event, the
error events included, carries the conversation name. -/
theorem claim_C4_counterexample :
    (sendMessage processingSession [] 0 "hi" "web" none none).2 =
      [.broadcastEvent (.error busyErrorText)] ∧
    Event.sessionNameField (.error busyErrorText) = none :=
  ⟨rfl, rfl⟩

/-- C4 amended: every event a ManagedSession broadcasts — from sendMessage
on any path and from the output loop on any stream outcome — either is an
error event, which carries no sessionName field, or carries sessionName
equal to the conversation name. -/
theorem claim_C4_amended (st : SessionState) (mediaPath : String) (world : List String)
    (now : Nat) (content source : String) (se re : Option String)
    (outcome : StreamOutcome) :
    (∀ e ∈ broadcastsOf (sendMessage st world now content source se re).2,
        (e.isError = true ∧ e.sessionNameField = none) ∨
        e.sessionNameField = some st.sessionName) ∧
    (∀ e ∈ broadcastsOf (startListening mediaPath world st outcome).2,
        (e.isError = true ∧ e.sessionNameField = none) ∨
        e.sessionNameField = some st.sessionName) := by
  constructor
  · intro e he
    by_cases hP : st.isProcessing
    · simp [sendMessage, hP, broadcastsOf] at he
      subst he
      exact Or.inl ⟨rfl, rfl⟩
    · cases se with
      | none =>
          by_cases hLi : st.isListening <;>
            simp [sendMessage, hP, hLi, broadcastsOf] at he <;>
            (subst he; exact Or.inr rfl)
      | some e1 =>
          by_cases hres : st.isResetting
          · cases re with
            | none =>
                by_cases hLi : st.isListening <;>
                  simp [sendMessage, hP, hres, hLi, resetAgentSession, broadcastsOf] at he <;>
                  (subst he; exact Or.inr rfl)
            | some e2 =>
                simp [sendMessage, hP, hres, resetAgentSession, broadcastsOf] at he
                rcases he with he | he
                · subst he; exact Or.inr rfl
                · subst he; exact Or.inl ⟨rfl, rfl⟩
          · cases re with
            | none =>
                simp [sendMessage, hP, hres, resetAgentSession, broadcastsOf] at he
                subst he; exact Or.inr rfl
            | some e2 =>
                simp [sendMessage, hP, hres, resetAgentSession, broadcastsOf] at he
                rcases he with he | he
                · subst he; exact Or.inr rfl
                · subst he; exact Or.inl ⟨rfl, rfl⟩
  · intro e he
    cases hLi : st.isListening with
    | true => simp [startListening, hLi, broadcastsOf] at he
    | false =>
        cases outcome with
        | ends msgs =>
            simp only [startListening, hLi, Bool.false_eq_true, if_false] at he
            exact Or.inr (runLoop_broadcasts mediaPath world msgs
              { st with isListening := true } e he)
        | throws msgs err =>
            simp only [startListening, hLi, Bool.false_eq_true, if_false, broadcastsOf,
              List.filterMap_append, List.mem_append] at he
            rcases he with (he | he) | he
            · exact Or.inr (runLoop_broadcasts mediaPath world msgs
                { st with isListening := true } e he)
            · simp at he
              subst he
              exact Or.inl ⟨rfl, rfl⟩
            · rw [show List.filterMap _ (resetAgentSession _).2 =
                  broadcastsOf (resetAgentSession _).2 from rfl, broadcasts_reset] at he
              simp at he

/-- Witness for C4 amended: the busy error event broadcast on a Processing
session satisfies the amended envelope property through its left disjunct
(an error event with no sessionName field). -/
theorem claim_C4_amended_witness :
    (Event.isError (.error busyErrorText) = true ∧
      Event.sessionNameField (.error busyErrorText) = none) ∨
    Event.sessionNameField (.error busyErrorText) = some processingSession.sessionName :=
  (claim_C4_amended processingSession "/m" [] 0 "hi" "web" none none (.ends [])).1
    (.error busyErrorText) (by simp [sendMessage, processingSession, idleSession, broadcastsOf])

end MyAgentive
